import Mathlib

/-!
# Delta OTA example (`examples/http_delta_ota/main/main.c`)

A shallow embedding of the three decoder callbacks (`write_cb`, `read_cb`,
`seek_cb`) and of `ota_example_task`.

Machine integers are mathematical integers with explicit reduction:
`int` is a value in `[-2^31, 2^31)`, `size_t` and `uint32_t` are naturals
below `2^32` (the target is a 32-bit core).  Calls into ESP-IDF, the HTTP
client and the patch decoder are answered by an environment and recorded in
an event trace.
-/

namespace DeltaOta

/-! ## Machine arithmetic -/

/-- Conversion of an integer to `int` (two's complement wrap-around). -/
def wrapInt32 (x : Int) : Int := (x + 2 ^ 31) % 2 ^ 32 - 2 ^ 31

/-- Conversion of an `int` to `uint32_t` / `size_t`, as done by the usual
arithmetic conversions when an `int` meets an unsigned 32-bit operand. -/
def toUInt32 (x : Int) : Nat := (x % 2 ^ 32).toNat

/-! ## Constants -/

/-- Size of the transfer buffer: `#define BUFFSIZE 1024`. -/
def BUFFSIZE : Nat := 1024

/-- Status constants of `esp_delta_ota.h`.  The header belongs to the decoder
component; the values of its macros are parameters of the embedding. -/
structure DeltaCodes where
  DELTA_OK : Int
  DELTA_OUT_OF_MEMORY : Int
  DELTA_READING_SOURCE_ERROR : Int
  DELTA_WRITING_ERROR : Int
  DELTA_SEEKING_ERROR : Int
  DELTA_INVALID_BUF_SIZE : Int
  deriving Repr, DecidableEq

/-- Modelled from the spec: the values of the `DELTA_*` macros are missing;
the spec fixes "status `OK (0)` on success; negative status codes" for the
errors, that is `DELTA_OK = 0` and every `-DELTA_x` is negative. -/
def DeltaCodes.Valid (K : DeltaCodes) : Prop :=
  K.DELTA_OK = 0 ∧ 0 < K.DELTA_OUT_OF_MEMORY ∧ 0 < K.DELTA_READING_SOURCE_ERROR ∧
  0 < K.DELTA_WRITING_ERROR ∧ 0 < K.DELTA_SEEKING_ERROR ∧ 0 < K.DELTA_INVALID_BUF_SIZE

instance (K : DeltaCodes) : Decidable K.Valid := by
  unfold DeltaCodes.Valid; infer_instance

/-- One assignment of the status constants satisfying `DeltaCodes.Valid`,
used for concrete evaluations. -/
def sampleCodes : DeltaCodes :=
  { DELTA_OK := 0
    DELTA_OUT_OF_MEMORY := 28
    DELTA_READING_SOURCE_ERROR := 30
    DELTA_WRITING_ERROR := 31
    DELTA_SEEKING_ERROR := 32
    DELTA_INVALID_BUF_SIZE := 34 }

/-- The fields of `esp_partition_t` the program looks at. -/
structure esp_partition_t where
  /-- Field `uint32_t size`. -/
  size : Nat
  /-- Field `esp_partition_subtype_t subtype`. -/
  subtype : Nat
  deriving Repr, DecidableEq

/-! ## Events -/

/-- Calls that leave the program, in the order they are made. -/
inductive Event where
  | esp_http_client_init
  | esp_http_client_open
  | esp_http_client_fetch_headers
  | esp_http_client_read (len : Nat) (data_read : Int)
  | esp_http_client_is_complete_data_received (result : Bool)
  | esp_http_client_close
  | esp_http_client_cleanup
  | esp_ota_get_running_partition
  | esp_ota_get_next_update_partition
  | esp_ota_begin
  | esp_ota_write (data : List Nat) (size : Nat)
  | esp_ota_end
  | esp_ota_set_boot_partition
  | esp_partition_read (src_offset : Nat) (size : Nat)
  | delta_ota_set_cfg
  | esp_delta_ota_feed_patch (buf : List Nat) (size : Int)
  | esp_delta_ota_finish (result : Int)
  | esp_delta_ota_deinit
  | reboot
  | task_fatal_error
  deriving Repr, DecidableEq

/-! ## The callbacks -/

/-- What a callback leaves behind: its return value, the cursor `*arg_p`,
the bytes stored through `buf_p` (if any) and the external calls made. -/
structure CbResult where
  status : Int
  src_offset : Int
  buf : Option (List Nat)
  events : List Event
  deriving Repr, DecidableEq

/-- The callback `write_cb`.  `esp_ota_write buf size` tells whether the platform write
returns `ESP_OK`.  The cursor behind `arg_p` is not touched. -/
def write_cb (K : DeltaCodes) (esp_ota_write : List Nat → Nat → Bool)
    (src_offset1 : Int) (buf_p : List Nat) (size : Nat) : CbResult :=
  if size ≤ 0 then
    { status := -K.DELTA_INVALID_BUF_SIZE, src_offset := src_offset1, buf := none, events := [] }
  else if esp_ota_write buf_p size != true then
    { status := -K.DELTA_WRITING_ERROR, src_offset := src_offset1, buf := none,
      events := [Event.esp_ota_write buf_p size] }
  else
    { status := K.DELTA_OK, src_offset := src_offset1, buf := none,
      events := [Event.esp_ota_write buf_p size] }

/-- The callback `read_cb`.  `esp_partition_read off size` is `some bytes` when the
platform read returns `ESP_OK` (the bytes it stored in `buf_p`) and `none`
otherwise; its offset parameter is a `size_t`, so the `int` cursor is
converted on the call. -/
def read_cb (K : DeltaCodes) (src : esp_partition_t)
    (esp_partition_read : Nat → Nat → Option (List Nat))
    (src_offset1 : Int) (size : Nat) : CbResult :=
  if size ≤ 0 then
    { status := -K.DELTA_INVALID_BUF_SIZE, src_offset := src_offset1, buf := none, events := [] }
  else
    match esp_partition_read (toUInt32 src_offset1) size with
    | none =>
      { status := -K.DELTA_READING_SOURCE_ERROR, src_offset := src_offset1, buf := none,
        events := [Event.esp_partition_read (toUInt32 src_offset1) size] }
    | some bytes =>
      let src_offset2 := wrapInt32 (src_offset1 + size)
      if toUInt32 src_offset2 ≥ src.size then
        { status := -K.DELTA_OUT_OF_MEMORY, src_offset := src_offset2, buf := some bytes,
          events := [Event.esp_partition_read (toUInt32 src_offset1) size] }
      else
        { status := K.DELTA_OK, src_offset := src_offset2, buf := some bytes,
          events := [Event.esp_partition_read (toUInt32 src_offset1) size] }

/-- The callback `seek_cb`.  The sum is reduced to `int`; the comparison with the
`uint32_t` partition size is unsigned. -/
def seek_cb (K : DeltaCodes) (src : esp_partition_t) (src_offset1 : Int) (offset : Int) :
    CbResult :=
  let src_offset2 := wrapInt32 (src_offset1 + offset)
  if toUInt32 src_offset2 ≥ src.size then
    { status := -K.DELTA_SEEKING_ERROR, src_offset := src_offset2, buf := none, events := [] }
  else
    { status := K.DELTA_OK, src_offset := src_offset2, buf := none, events := [] }

/-! ## The decoder as seen from the callbacks -/

/-- One callback invocation made by the patch decoder, together with the
answer of the storage primitive the callback may call. -/
inductive CbCall where
  /-- A call `read_cb(arg, buf, size)`; `flash` is the outcome of `esp_partition_read`. -/
  | read (size : Nat) (flash : Option (List Nat))
  /-- A call `seek_cb(arg, offset)`. -/
  | seek (offset : Int)
  /-- A call `write_cb(arg, buf, size)`; `flash_ok` tells whether `esp_ota_write` returns `ESP_OK`. -/
  | write (buf : List Nat) (size : Nat) (flash_ok : Bool)
  deriving Repr, DecidableEq

/-- Dispatch of one decoder callback on the cursor `src_offset1`. -/
def callback (K : DeltaCodes) (src : esp_partition_t) (src_offset1 : Int) : CbCall → CbResult
  | .read size flash => read_cb K src (fun _ _ => flash) src_offset1 size
  | .seek offset => seek_cb K src src_offset1 offset
  | .write buf size flash_ok => write_cb K (fun _ _ => flash_ok) src_offset1 buf size

/-- A series of callbacks on one cursor: for every call the cursor before it
and what the call left behind. -/
def cursor_steps (K : DeltaCodes) (src : esp_partition_t) :
    Int → List CbCall → List (Int × CbResult)
  | _, [] => []
  | o, c :: cs => (o, callback K src o c) :: cursor_steps K src (callback K src o c).src_offset cs

/-- Cursor after a series of callbacks and the external calls they made. -/
def run_callbacks (K : DeltaCodes) (src : esp_partition_t) :
    Int → List CbCall → Int × List Event
  | o, [] => (o, [])
  | o, c :: cs =>
    let r := callback K src o c
    let rest := run_callbacks K src r.src_offset cs
    (rest.1, r.events ++ rest.2)

/-- A read or a seek whose amount is not negative (a `size_t` never is). -/
def CbCall.forward : CbCall → Bool
  | .read _ _ => true
  | .seek offset => decide (0 ≤ offset)
  | .write _ _ _ => false

/-- The addition the call performs on cursor `o`, if it performs one, stays
inside the range of `int`. -/
def CbCall.in_range (o : Int) : CbCall → Bool
  | .read size flash =>
    if 0 < size ∧ flash.isSome then decide (-2 ^ 31 ≤ o + size ∧ o + size < 2 ^ 31) else true
  | .seek offset => decide (-2 ^ 31 ≤ o + offset ∧ o + offset < 2 ^ 31)
  | .write _ _ _ => true

/-- No call of the series overflows the cursor. -/
def no_overflow (K : DeltaCodes) (src : esp_partition_t) : Int → List CbCall → Bool
  | _, [] => true
  | o, c :: cs => c.in_range o && no_overflow K src (callback K src o c).src_offset cs

/-! ## `ota_example_task` -/

/-- What the environment answers in one iteration of the `while (1)` loop. -/
structure NetStep where
  /-- return value of `esp_http_client_read` -/
  data_read : Int
  /-- contents of `ota_write_data` after the read -/
  buf : List Nat
  /-- Result of `esp_http_client_is_complete_data_received(client)`. -/
  complete : Bool
  /-- value of `errno` after the read -/
  errno : Int
  /-- callbacks the decoder makes while it is fed this chunk -/
  feed_calls : List CbCall
  /-- return value of `esp_delta_ota_feed_patch` -/
  feed_result : Int
  deriving Repr, DecidableEq

/-- Everything outside `main.c` that `ota_example_task` depends on.  The
answer to a network read may depend on the length asked for. -/
structure Env where
  /-- platform constant from `esp_partition.h` -/
  ESP_PARTITION_SUBTYPE_APP_OTA_MAX : Nat
  /-- platform constant from `errno.h` -/
  ECONNRESET : Int
  /-- platform constant from `errno.h` -/
  ENOTCONN : Int
  /-- Whether `esp_http_client_init` returns a non-NULL client. -/
  client_init : Bool
  /-- Whether `esp_http_client_open` returns `ESP_OK`. -/
  open_ok : Bool
  /-- Result of `esp_ota_get_running_partition()`; `none` is `NULL`. -/
  running_partition : Option esp_partition_t
  /-- Result of `esp_ota_get_next_update_partition(NULL)`; `none` is `NULL`. -/
  next_update_partition : Option esp_partition_t
  /-- Whether `esp_ota_begin` returns `ESP_OK`. -/
  ota_begin_ok : Bool
  /-- Whether `delta_ota_set_cfg` returns a non-NULL handle. -/
  set_cfg_ok : Bool
  /-- answers to the successive `esp_http_client_read(client, buf, len)` calls -/
  net : List (Nat → NetStep)
  /-- callbacks the decoder makes inside `esp_delta_ota_finish` -/
  finish_calls : List CbCall
  /-- return value of `esp_delta_ota_finish` -/
  finish_result : Int

/-- How the `while (1)` loop was left. -/
inductive LoopExit where
  /-- through one of the two `break`s -/
  | done
  /-- through `task_fatal_error()` -/
  | fatal
  /-- not yet: the loop is about to read again and no answer is left -/
  | streaming
  deriving Repr, DecidableEq

/-- Trace, cursor and exit of the loop. -/
structure LoopResult where
  trace : List Event
  src_offset : Int
  exit : LoopExit
  deriving Repr, DecidableEq

/-- Calls made by `http_cleanup(client)`. -/
def http_cleanup : List Event :=
  [Event.esp_http_client_close, Event.esp_http_client_cleanup]

/-- The `while (1)` loop of `ota_example_task`, run on the answers `net`. -/
def ingest_loop (K : DeltaCodes) (env : Env) (src : esp_partition_t) :
    Int → List (Nat → NetStep) → LoopResult
  | o, [] => { trace := [], src_offset := o, exit := LoopExit.streaming }
  | o, e :: rest =>
    let r := e BUFFSIZE
    let rd := Event.esp_http_client_read BUFFSIZE r.data_read
    if r.data_read < 0 then
      { trace := rd :: (http_cleanup ++ [Event.task_fatal_error]), src_offset := o,
        exit := LoopExit.fatal }
    else if r.data_read > 0 then
      let fed := run_callbacks K src o r.feed_calls
      let t := rd :: Event.esp_delta_ota_feed_patch r.buf r.data_read :: fed.2
      if r.feed_result < 0 then
        { trace := t ++ [Event.task_fatal_error], src_offset := fed.1, exit := LoopExit.fatal }
      else
        let L := ingest_loop K env src fed.1 rest
        { L with trace := t ++ L.trace }
    else
      let t := [rd, Event.esp_http_client_is_complete_data_received r.complete]
      if r.complete == true then
        { trace := t, src_offset := o, exit := LoopExit.done }
      else if r.errno = env.ECONNRESET ∨ r.errno = env.ENOTCONN then
        { trace := t, src_offset := o, exit := LoopExit.done }
      else
        let L := ingest_loop K env src o rest
        { L with trace := t ++ L.trace }

/-- How a run of `ota_example_task` ends. -/
inductive Outcome where
  /-- The call `reboot()` was reached. -/
  | rebooted
  /-- The call `task_fatal_error()` was reached. -/
  | fatal
  /-- the task is still in the ingest loop -/
  | streaming
  deriving Repr, DecidableEq

/-- A run of `ota_example_task`. -/
structure Run where
  trace : List Event
  outcome : Outcome
  deriving Repr, DecidableEq

/-- Calls made before the partitions are inspected. -/
def startup : List Event :=
  [Event.esp_http_client_init, Event.esp_http_client_open, Event.esp_http_client_fetch_headers,
   Event.esp_ota_get_running_partition, Event.esp_ota_get_next_update_partition]

/-- The task `ota_example_task`: its calls, in order, under the answers of `env`. -/
def ota_example_task (K : DeltaCodes) (env : Env) : Run :=
  if env.client_init = false then
    { trace := [Event.esp_http_client_init, Event.task_fatal_error], outcome := Outcome.fatal }
  else if env.open_ok = false then
    { trace := [Event.esp_http_client_init, Event.esp_http_client_open,
                Event.esp_http_client_cleanup, Event.task_fatal_error],
      outcome := Outcome.fatal }
  else
    match env.running_partition, env.next_update_partition with
    | some src, some dest =>
      if src.subtype ≥ env.ESP_PARTITION_SUBTYPE_APP_OTA_MAX ∨
          dest.subtype ≥ env.ESP_PARTITION_SUBTYPE_APP_OTA_MAX then
        { trace := startup ++ [Event.task_fatal_error], outcome := Outcome.fatal }
      else if env.ota_begin_ok = false then
        { trace := startup ++ [Event.esp_ota_begin, Event.task_fatal_error],
          outcome := Outcome.fatal }
      else if env.set_cfg_ok = false then
        { trace := startup ++ [Event.esp_ota_begin, Event.delta_ota_set_cfg,
                               Event.task_fatal_error],
          outcome := Outcome.fatal }
      else
        let L := ingest_loop K env src 0 env.net
        let t := startup ++ [Event.esp_ota_begin, Event.delta_ota_set_cfg] ++ L.trace
        match L.exit with
        | LoopExit.fatal => { trace := t, outcome := Outcome.fatal }
        | LoopExit.streaming => { trace := t, outcome := Outcome.streaming }
        | LoopExit.done =>
          let fin := run_callbacks K src L.src_offset env.finish_calls
          { trace := t ++ (Event.esp_delta_ota_finish env.finish_result :: fin.2) ++
                [Event.esp_delta_ota_deinit, Event.esp_ota_set_boot_partition] ++
                http_cleanup ++ [Event.reboot],
            outcome := Outcome.rebooted }
    | _, _ => { trace := startup ++ [Event.task_fatal_error], outcome := Outcome.fatal }

/-! ## Reading traces -/

/-- The chunks handed to `esp_delta_ota_feed_patch`, in order. -/
def feeds : List Event → List (List Nat × Int)
  | [] => []
  | Event.esp_delta_ota_feed_patch buf size :: t => (buf, size) :: feeds t
  | _ :: t => feeds t

/-- Is the event a call of `esp_delta_ota_finish`? -/
def Event.is_finish : Event → Bool
  | Event.esp_delta_ota_finish _ => true
  | _ => false

/-- Is the event a destination write? -/
def Event.is_write : Event → Bool
  | Event.esp_ota_write _ _ => true
  | _ => false

/-- Is the event a storage call made from inside a callback? -/
def Event.is_storage : Event → Bool
  | Event.esp_ota_write _ _ => true
  | Event.esp_partition_read _ _ => true
  | _ => false

/-- Is the event one the `while (1)` loop can produce? -/
def Event.in_loop : Event → Bool
  | Event.esp_http_client_read _ _ => true
  | Event.esp_http_client_is_complete_data_received _ => true
  | Event.esp_http_client_close => true
  | Event.esp_http_client_cleanup => true
  | Event.esp_delta_ota_feed_patch _ _ => true
  | Event.esp_ota_write _ _ => true
  | Event.esp_partition_read _ _ => true
  | Event.task_fatal_error => true
  | _ => false

/-- Is the event one of the calls made while the task sets itself up or gives
up doing so? -/
def Event.is_setup : Event → Bool
  | Event.esp_http_client_init => true
  | Event.esp_http_client_open => true
  | Event.esp_http_client_fetch_headers => true
  | Event.esp_http_client_cleanup => true
  | Event.esp_ota_get_running_partition => true
  | Event.esp_ota_get_next_update_partition => true
  | Event.esp_ota_begin => true
  | Event.delta_ota_set_cfg => true
  | Event.task_fatal_error => true
  | _ => false

/-- Calls made between the start of the task and the first network read when
every set-up step succeeds. -/
def setup : List Event :=
  startup ++ [Event.esp_ota_begin, Event.delta_ota_set_cfg]

/-- Calls made after the loop was left through a `break`. -/
def finalization (K : DeltaCodes) (env : Env) (src : esp_partition_t) (o : Int) : List Event :=
  (Event.esp_delta_ota_finish env.finish_result :: (run_callbacks K src o env.finish_calls).2) ++
    [Event.esp_delta_ota_deinit, Event.esp_ota_set_boot_partition] ++
    http_cleanup ++ [Event.reboot]

/-! ## Sample inputs -/

/-- A series of callbacks: a read of 4, a seek by 3, an empty read, a failing
read, and a read of 9 that reaches the capacity 16. -/
def sampleCalls : List CbCall :=
  [CbCall.read 4 (some [1, 2, 3, 4]), CbCall.seek 3, CbCall.read 0 none,
   CbCall.read 2 none, CbCall.read 9 (some [])]

/-- A network read delivering three bytes (fewer if fewer are asked for); the
decoder, fed with them, reads two source bytes and writes two bytes. -/
def sampleChunk (feed_result : Int) : Nat → NetStep := fun len =>
  { data_read := ((min 3 len : Nat) : Int), buf := [1, 2, 3], complete := false, errno := 0
    feed_calls := [CbCall.read 2 (some [9, 9]), CbCall.write [9, 9] 2 true]
    feed_result := feed_result }

/-- A zero-length network read with all data received. -/
def sampleEnd : Nat → NetStep := fun _ =>
  { data_read := 0, buf := [], complete := true, errno := 0, feed_calls := [], feed_result := 0 }

/-- A failing network read. -/
def sampleReadError : Nat → NetStep := fun _ =>
  { data_read := -1, buf := [], complete := false, errno := 0, feed_calls := [],
    feed_result := 0 }

/-- An environment in which every set-up step succeeds, with two 16-byte
application partitions. -/
def sampleEnv (net : List (Nat → NetStep)) (finish_result : Int) : Env :=
  { ESP_PARTITION_SUBTYPE_APP_OTA_MAX := 32, ECONNRESET := 104, ENOTCONN := 128
    client_init := true, open_ok := true
    running_partition := some ⟨16, 16⟩, next_update_partition := some ⟨16, 17⟩
    ota_begin_ok := true, set_cfg_ok := true
    net := net, finish_calls := [], finish_result := finish_result }

/-! ## Arithmetic lemmas -/

theorem wrapInt32_of_range (x : Int) (h1 : -2 ^ 31 ≤ x) (h2 : x < 2 ^ 31) : wrapInt32 x = x := by
  unfold wrapInt32
  have : (x + 2 ^ 31) % 2 ^ 32 = x + 2 ^ 31 := Int.emod_eq_of_lt (by omega) (by omega)
  omega

theorem wrapInt32_range (x : Int) : -2 ^ 31 ≤ wrapInt32 x ∧ wrapInt32 x < 2 ^ 31 := by
  unfold wrapInt32
  have h1 : 0 ≤ (x + 2 ^ 31) % 2 ^ 32 := Int.emod_nonneg _ (by norm_num)
  have h2 : (x + 2 ^ 31) % 2 ^ 32 < 2 ^ 32 := Int.emod_lt_of_pos _ (by norm_num)
  omega

theorem toUInt32_of_nonneg (x : Int) (h1 : 0 ≤ x) (h2 : x < 2 ^ 32) :
    (toUInt32 x : Int) = x := by
  unfold toUInt32
  rw [Int.emod_eq_of_lt h1 h2]
  exact Int.toNat_of_nonneg h1

theorem toUInt32_of_neg (x : Int) (h1 : -2 ^ 31 ≤ x) (h2 : x < 0) :
    (toUInt32 x : Int) = x + 2 ^ 32 := by
  unfold toUInt32
  have h : x % 2 ^ 32 = x + 2 ^ 32 := by
    have e : x % 2 ^ 32 = (x + 2 ^ 32) % 2 ^ 32 := by simp
    rw [e]
    exact Int.emod_eq_of_lt (by omega) (by omega)
  rw [h]
  exact Int.toNat_of_nonneg (by omega)

/-! ## The callbacks: single calls -/

theorem read_cb_success (K : DeltaCodes) (src : esp_partition_t)
    (flash : Nat → Nat → Option (List Nat)) (o : Int) (n : Nat) (bytes : List Nat)
    (hn : 0 < n) (hfl : flash (toUInt32 o) n = some bytes) :
    read_cb K src flash o n =
      { status := if toUInt32 (wrapInt32 (o + n)) ≥ src.size then -K.DELTA_OUT_OF_MEMORY
                  else K.DELTA_OK
        src_offset := wrapInt32 (o + n)
        buf := some bytes
        events := [Event.esp_partition_read (toUInt32 o) n] } := by
  unfold read_cb
  rw [if_neg (by omega)]
  simp only [hfl]
  split <;> rfl

theorem read_cb_failure (K : DeltaCodes) (src : esp_partition_t)
    (flash : Nat → Nat → Option (List Nat)) (o : Int) (n : Nat)
    (hn : 0 < n) (hfl : flash (toUInt32 o) n = none) :
    read_cb K src flash o n =
      { status := -K.DELTA_READING_SOURCE_ERROR, src_offset := o, buf := none,
        events := [Event.esp_partition_read (toUInt32 o) n] } := by
  unfold read_cb
  rw [if_neg (by omega)]
  simp only [hfl]

theorem seek_cb_eq (K : DeltaCodes) (src : esp_partition_t) (o d : Int) :
    seek_cb K src o d =
      { status := if toUInt32 (wrapInt32 (o + d)) ≥ src.size then -K.DELTA_SEEKING_ERROR
                  else K.DELTA_OK
        src_offset := wrapInt32 (o + d), buf := none, events := [] } := by
  unfold seek_cb
  simp only []
  split <;> rfl

theorem toUInt32_natCast (m : Nat) (h : m < 2 ^ 32) : toUInt32 (m : Int) = m := by
  have := toUInt32_of_nonneg (m : Int) (by omega) (by exact_mod_cast h)
  exact_mod_cast this

/-- C1: for a cursor `o ≥ 0` and a size `n > 0` with `o + n` representable as
an `int`, a `read_cb` whose partition read succeeds reads `n` bytes at offset
`o`, leaves the cursor at `o + n` and returns `DELTA_OK` when `o + n` is below
the capacity and `-DELTA_OUT_OF_MEMORY` otherwise; when the partition read
fails it returns `-DELTA_READING_SOURCE_ERROR` and leaves the cursor at `o`. -/
theorem read_cb_contract (K : DeltaCodes) (src : esp_partition_t)
    (flash : Nat → Nat → Option (List Nat)) (o n : Nat)
    (hn : 0 < n) (hrep : o + n < 2 ^ 31) :
    (∀ bytes, flash o n = some bytes →
      read_cb K src flash (o : Int) n =
        { status := if o + n < src.size then K.DELTA_OK else -K.DELTA_OUT_OF_MEMORY
          src_offset := ((o + n : Nat) : Int)
          buf := some bytes
          events := [Event.esp_partition_read o n] }) ∧
    (flash o n = none →
      read_cb K src flash (o : Int) n =
        { status := -K.DELTA_READING_SOURCE_ERROR, src_offset := (o : Int), buf := none,
          events := [Event.esp_partition_read o n] }) := by
  have ho : toUInt32 (o : Int) = o := toUInt32_natCast o (by omega)
  have hw : wrapInt32 ((o : Int) + (n : Int)) = ((o + n : Nat) : Int) := by
    rw [wrapInt32_of_range] <;> push_cast <;> omega
  have hu : toUInt32 ((o + n : Nat) : Int) = o + n := toUInt32_natCast (o + n) (by omega)
  constructor
  · intro bytes hfl
    rw [read_cb_success K src flash o n bytes hn (by rw [ho]; exact hfl), hw, hu, ho]
    by_cases hlt : o + n < src.size
    · rw [if_neg (by omega), if_pos hlt]
    · rw [if_pos (by omega), if_neg hlt]
  · intro hfl
    rw [read_cb_failure K src flash o n hn (by rw [ho]; exact hfl), ho]

/-- Witness of C1 on a 16-byte partition: a read of 4 bytes at offset 2 and a
failing read. -/
theorem read_cb_contract_witness :
    0 < 4 ∧ 2 + 4 < 2 ^ 31 ∧
    read_cb sampleCodes ⟨16, 16⟩ (fun _ _ => some [7, 7, 7, 7]) 2 4 =
      { status := 0, src_offset := 6, buf := some [7, 7, 7, 7],
        events := [Event.esp_partition_read 2 4] } ∧
    read_cb sampleCodes ⟨16, 16⟩ (fun _ _ => none) 2 4 =
      { status := -30, src_offset := 2, buf := none,
        events := [Event.esp_partition_read 2 4] } :=
  ⟨by decide, by decide,
   (read_cb_contract sampleCodes ⟨16, 16⟩ (fun _ _ => some [7, 7, 7, 7]) 2 4
      (by decide) (by decide)).1 _ rfl,
   (read_cb_contract sampleCodes ⟨16, 16⟩ (fun _ _ => none) 2 4
      (by decide) (by decide)).2 rfl⟩

theorem toUInt32_eq_of_eq_natCast (x : Int) (c : Nat) (hr : -2 ^ 31 ≤ x ∧ x < 2 ^ 31)
    (h : x = (c : Int)) : toUInt32 x = c := by
  subst h
  exact toUInt32_natCast c (by omega)

/-- C2: on a partition of capacity `c ≥ 1`, a `read_cb` (size `n > 0`, partition
read succeeding) that leaves the cursor at exactly `c` returns
`-DELTA_OUT_OF_MEMORY` and a `seek_cb` that does so returns
`-DELTA_SEEKING_ERROR`; either call leaving the cursor at exactly `c - 1`
returns `DELTA_OK`. -/
theorem exhaustion_boundary (K : DeltaCodes) (src : esp_partition_t) (hc : 1 ≤ src.size)
    (flash : Nat → Nat → Option (List Nat)) (o : Int) (n : Nat) (bytes : List Nat)
    (hn : 0 < n) (hfl : flash (toUInt32 o) n = some bytes) (d : Int) :
    ((read_cb K src flash o n).src_offset = (src.size : Int) →
      (read_cb K src flash o n).status = -K.DELTA_OUT_OF_MEMORY) ∧
    ((read_cb K src flash o n).src_offset = (src.size : Int) - 1 →
      (read_cb K src flash o n).status = K.DELTA_OK) ∧
    ((seek_cb K src o d).src_offset = (src.size : Int) →
      (seek_cb K src o d).status = -K.DELTA_SEEKING_ERROR) ∧
    ((seek_cb K src o d).src_offset = (src.size : Int) - 1 →
      (seek_cb K src o d).status = K.DELTA_OK) := by
  rw [read_cb_success K src flash o n bytes hn hfl, seek_cb_eq]
  simp only []
  have key : ∀ x : Int,
      (wrapInt32 x = (src.size : Int) → src.size ≤ toUInt32 (wrapInt32 x)) ∧
      (wrapInt32 x = (src.size : Int) - 1 → ¬ src.size ≤ toUInt32 (wrapInt32 x)) := by
    intro x
    constructor
    · intro h
      rw [toUInt32_eq_of_eq_natCast _ src.size (wrapInt32_range x) h]
    · intro h
      have h2 : wrapInt32 x = ((src.size - 1 : Nat) : Int) := by omega
      rw [toUInt32_eq_of_eq_natCast _ (src.size - 1) (wrapInt32_range x) h2]
      omega
  refine ⟨fun h => ?_, fun h => ?_, fun h => ?_, fun h => ?_⟩
  · rw [if_pos ((key _).1 h)]
  · rw [if_neg ((key _).2 h)]
  · rw [if_pos ((key _).1 h)]
  · rw [if_neg ((key _).2 h)]

/-- Witness of C2 on a 16-byte partition: reads and seeks from offset 10 that
end at 16 and at 15. -/
theorem exhaustion_boundary_witness :
    (read_cb sampleCodes ⟨16, 16⟩ (fun _ _ => some []) 10 6).status = -28 ∧
    (read_cb sampleCodes ⟨16, 16⟩ (fun _ _ => some []) 10 5).status = 0 ∧
    (seek_cb sampleCodes ⟨16, 16⟩ 10 6).status = -32 ∧
    (seek_cb sampleCodes ⟨16, 16⟩ 10 5).status = 0 :=
  ⟨(exhaustion_boundary sampleCodes ⟨16, 16⟩ (by decide) (fun _ _ => some []) 10 6 []
      (by decide) rfl 6).1 (by decide),
   (exhaustion_boundary sampleCodes ⟨16, 16⟩ (by decide) (fun _ _ => some []) 10 5 []
      (by decide) rfl 5).2.1 (by decide),
   (exhaustion_boundary sampleCodes ⟨16, 16⟩ (by decide) (fun _ _ => some []) 10 6 []
      (by decide) rfl 6).2.2.1 (by decide),
   (exhaustion_boundary sampleCodes ⟨16, 16⟩ (by decide) (fun _ _ => some []) 10 5 []
      (by decide) rfl 5).2.2.2 (by decide)⟩

/-- C3 as stated fails for `seek_cb`: with delta 0 on a 16-byte partition and
the cursor at 0 it returns `DELTA_OK`, not `-DELTA_INVALID_BUF_SIZE`. -/
theorem seek_cb_zero_not_rejected :
    (seek_cb sampleCodes ⟨16, 16⟩ 0 0).status = sampleCodes.DELTA_OK ∧
    (seek_cb sampleCodes ⟨16, 16⟩ 0 0).status ≠ -sampleCodes.DELTA_INVALID_BUF_SIZE := by
  decide

/-- C3 (amended): `read_cb` and `write_cb` called with size 0 return
`-DELTA_INVALID_BUF_SIZE`, leave the cursor unchanged and make no partition
read and no destination write; `seek_cb` has no such check: with delta 0 it
leaves the cursor unchanged and makes no storage call, but returns `DELTA_OK`
when the cursor (as unsigned) is below the capacity and `-DELTA_SEEKING_ERROR`
otherwise. -/
theorem zero_size_calls (K : DeltaCodes) (src : esp_partition_t)
    (flash_read : Nat → Nat → Option (List Nat)) (flash_write : List Nat → Nat → Bool)
    (buf : List Nat) (o : Int) (ho : -2 ^ 31 ≤ o ∧ o < 2 ^ 31) :
    read_cb K src flash_read o 0 =
      { status := -K.DELTA_INVALID_BUF_SIZE, src_offset := o, buf := none, events := [] } ∧
    write_cb K flash_write o buf 0 =
      { status := -K.DELTA_INVALID_BUF_SIZE, src_offset := o, buf := none, events := [] } ∧
    seek_cb K src o 0 =
      { status := if toUInt32 o ≥ src.size then -K.DELTA_SEEKING_ERROR else K.DELTA_OK
        src_offset := o, buf := none, events := [] } := by
  refine ⟨?_, ?_, ?_⟩
  · unfold read_cb
    rw [if_pos (le_refl 0)]
  · unfold write_cb
    rw [if_pos (le_refl 0)]
  · rw [seek_cb_eq, Int.add_zero, wrapInt32_of_range o ho.1 ho.2]

/-- Witness of the amended C3 with the cursor at 5 on a 16-byte partition. -/
theorem zero_size_calls_witness :
    (-(2 : Int) ^ 31 ≤ 5 ∧ (5 : Int) < 2 ^ 31) ∧
    read_cb sampleCodes ⟨16, 16⟩ (fun _ _ => some [1]) 5 0 =
      { status := -34, src_offset := 5, buf := none, events := [] } ∧
    write_cb sampleCodes (fun _ _ => true) 5 [1, 2] 0 =
      { status := -34, src_offset := 5, buf := none, events := [] } ∧
    seek_cb sampleCodes ⟨16, 16⟩ 5 0 =
      { status := 0, src_offset := 5, buf := none, events := [] } :=
  ⟨by decide,
   zero_size_calls sampleCodes ⟨16, 16⟩ (fun _ _ => some [1]) (fun _ _ => true) [1, 2] 5
     (by decide)⟩

/-- C10: when `o + d` is representable as an `int` and the capacity is below
`2^31`, `seek_cb` leaves the cursor at `o + d`; if `o + d` is negative its
unsigned value is at least the capacity and the call returns
`-DELTA_SEEKING_ERROR`; and it returns `DELTA_OK` exactly when
`0 ≤ o + d < capacity`. -/
theorem seek_cb_negative (K : DeltaCodes) (hK : K.Valid) (src : esp_partition_t)
    (hc : src.size < 2 ^ 31) (o d : Int) (hrep : -2 ^ 31 ≤ o + d ∧ o + d < 2 ^ 31) :
    (seek_cb K src o d).src_offset = o + d ∧
    (o + d < 0 → src.size ≤ toUInt32 (o + d) ∧
      (seek_cb K src o d).status = -K.DELTA_SEEKING_ERROR) ∧
    ((seek_cb K src o d).status = K.DELTA_OK ↔ 0 ≤ o + d ∧ o + d < (src.size : Int)) := by
  obtain ⟨hok, -, -, -, hseek, -⟩ := hK
  rw [seek_cb_eq, wrapInt32_of_range _ hrep.1 hrep.2]
  simp only []
  refine ⟨trivial, fun hneg => ?_, ?_⟩
  · have hu := toUInt32_of_neg (o + d) hrep.1 hneg
    have hle : src.size ≤ toUInt32 (o + d) := by omega
    exact ⟨hle, by rw [if_pos hle]⟩
  · by_cases hneg : o + d < 0
    · have hu := toUInt32_of_neg (o + d) hrep.1 hneg
      rw [if_pos (show src.size ≤ toUInt32 (o + d) by omega)]
      constructor
      · intro h; omega
      · intro h; omega
    · have hu := toUInt32_of_nonneg (o + d) (by omega) (by omega)
      by_cases hlt : o + d < (src.size : Int)
      · rw [if_neg (show ¬ src.size ≤ toUInt32 (o + d) by omega)]
        exact ⟨fun _ => ⟨by omega, hlt⟩, fun _ => rfl⟩
      · rw [if_pos (show src.size ≤ toUInt32 (o + d) by omega)]
        constructor
        · intro h; omega
        · intro h; omega

/-- Witness of C10: a seek by -5 from offset 3 on a 16-byte partition. -/
theorem seek_cb_negative_witness :
    sampleCodes.Valid ∧ (16 : Nat) < 2 ^ 31 ∧
    (seek_cb sampleCodes ⟨16, 16⟩ 3 (-5)).src_offset = -2 ∧
    (seek_cb sampleCodes ⟨16, 16⟩ 3 (-5)).status = -32 :=
  ⟨by decide, by decide,
   (seek_cb_negative sampleCodes (by decide) ⟨16, 16⟩ (by decide) 3 (-5) (by decide)).1,
   ((seek_cb_negative sampleCodes (by decide) ⟨16, 16⟩ (by decide) 3 (-5) (by decide)).2.1
      (by decide)).2⟩

/-! ## The callbacks: series of calls -/

/-- One forward read or seek that does not overflow, on a cursor in
`[0, 2^31)`: the cursor does not go back, stays in `[0, 2^31)`, and the status
tells whether the capacity was reached. -/
theorem callback_forward_step (K : DeltaCodes) (hK : K.Valid) (src : esp_partition_t)
    (o : Int) (ho : 0 ≤ o ∧ o < 2 ^ 31) (c : CbCall)
    (hfw : c.forward = true) (hin : c.in_range o = true) :
    o ≤ (callback K src o c).src_offset ∧ (callback K src o c).src_offset < 2 ^ 31 ∧
    ((src.size : Int) ≤ (callback K src o c).src_offset → (callback K src o c).status < 0) ∧
    ((callback K src o c).status = K.DELTA_OK →
      (callback K src o c).src_offset < (src.size : Int)) := by
  obtain ⟨hok, hoom, hrd, -, hseek, hinv⟩ := hK
  cases c with
  | write buf size ok => simp [CbCall.forward] at hfw
  | seek d =>
    have hd : 0 ≤ d := by simpa [CbCall.forward] using hfw
    have hr : -2 ^ 31 ≤ o + d ∧ o + d < 2 ^ 31 := by simpa [CbCall.in_range] using hin
    have hu := toUInt32_of_nonneg (o + d) (by omega) (by omega)
    simp only [callback]
    rw [seek_cb_eq, wrapInt32_of_range _ hr.1 hr.2]
    simp only []
    by_cases hge : src.size ≤ toUInt32 (o + d)
    · rw [if_pos hge]
      exact ⟨by omega, hr.2, fun _ => by omega, fun h => by omega⟩
    · rw [if_neg hge]
      exact ⟨by omega, hr.2, fun h => by omega, fun _ => by omega⟩
  | read size flash =>
    simp only [callback]
    by_cases hs : 0 < size
    · cases flash with
      | none =>
        rw [read_cb_failure K src _ o size hs rfl]
        exact ⟨le_refl _, ho.2, fun _ => by simp only []; omega, fun h => by
          simp only [] at h; omega⟩
      | some bytes =>
        have hr : -2 ^ 31 ≤ o + (size : Int) ∧ o + (size : Int) < 2 ^ 31 := by
          simpa [CbCall.in_range, hs] using hin
        have hu := toUInt32_of_nonneg (o + size) (by omega) (by omega)
        rw [read_cb_success K src _ o size bytes hs rfl, wrapInt32_of_range _ hr.1 hr.2]
        simp only []
        by_cases hge : src.size ≤ toUInt32 (o + size)
        · rw [if_pos hge]
          exact ⟨by omega, hr.2, fun _ => by omega, fun h => by omega⟩
        · rw [if_neg hge]
          exact ⟨by omega, hr.2, fun h => by omega, fun _ => by omega⟩
    · have hz : size = 0 := by omega
      subst hz
      unfold read_cb
      rw [if_pos (le_refl 0)]
      exact ⟨le_refl _, ho.2, fun _ => by simp only []; omega, fun h => by
        simp only [] at h; omega⟩

theorem cursor_steps_forward (K : DeltaCodes) (hK : K.Valid) (src : esp_partition_t)
    (calls : List CbCall) :
    ∀ (o : Int), 0 ≤ o ∧ o < 2 ^ 31 →
      (∀ c ∈ calls, c.forward = true) → no_overflow K src o calls = true →
      ∀ s ∈ cursor_steps K src o calls,
        s.1 ≤ s.2.src_offset ∧
        ((src.size : Int) ≤ s.2.src_offset → s.2.status < 0) ∧
        (s.2.status = K.DELTA_OK → s.2.src_offset < (src.size : Int)) := by
  induction calls with
  | nil => intro o _ _ _ s hs; simp [cursor_steps] at hs
  | cons c cs ih =>
    intro o ho hfw hov s hs
    simp only [no_overflow, Bool.and_eq_true] at hov
    have hstep := callback_forward_step K hK src o ho c (hfw c (List.mem_cons_self _ _)) hov.1
    simp only [cursor_steps, List.mem_cons] at hs
    rcases hs with rfl | hs
    · exact ⟨hstep.1, hstep.2.2.1, hstep.2.2.2⟩
    · exact ih _ ⟨by omega, hstep.2.1⟩ (fun c' hc' => hfw c' (List.mem_cons_of_mem _ hc'))
        hov.2 s hs

/-- C9: in a series of `read_cb` / `seek_cb` calls starting from offset 0 with
non-negative sizes and deltas and no `int` overflow, the cursor after each call
is at least the cursor before it, every call that leaves the cursor at or above
the capacity returns a negative status, and every call that returns `DELTA_OK`
leaves the cursor below the capacity. -/
theorem cursor_monotone (K : DeltaCodes) (hK : K.Valid) (src : esp_partition_t)
    (calls : List CbCall) (hfw : ∀ c ∈ calls, c.forward = true)
    (hov : no_overflow K src 0 calls = true) :
    ∀ s ∈ cursor_steps K src 0 calls,
      s.1 ≤ s.2.src_offset ∧
      ((src.size : Int) ≤ s.2.src_offset → s.2.status < 0) ∧
      (s.2.status = K.DELTA_OK → s.2.src_offset < (src.size : Int)) :=
  cursor_steps_forward K hK src calls 0 (by norm_num) hfw hov

/-- Witness of C9 on a 16-byte partition. -/
theorem cursor_monotone_witness :
    sampleCodes.Valid ∧ (∀ c ∈ sampleCalls, c.forward = true) ∧
    no_overflow sampleCodes ⟨16, 16⟩ 0 sampleCalls = true ∧
    (cursor_steps sampleCodes ⟨16, 16⟩ 0 sampleCalls).map
        (fun s => (s.1, s.2.src_offset, s.2.status)) =
      [(0, 4, 0), (4, 7, 0), (7, 7, -34), (7, 7, -30), (7, 16, -28)] ∧
    ∀ s ∈ cursor_steps sampleCodes ⟨16, 16⟩ 0 sampleCalls,
      s.1 ≤ s.2.src_offset ∧
      (((16 : Nat) : Int) ≤ s.2.src_offset → s.2.status < 0) ∧
      (s.2.status = sampleCodes.DELTA_OK → s.2.src_offset < ((16 : Nat) : Int)) :=
  ⟨by decide, by decide, by decide, by decide,
   cursor_monotone sampleCodes (by decide) ⟨16, 16⟩ sampleCalls (by decide) (by decide)⟩

/-! ## Lists of events -/

theorem append_split_of_not_mem {α : Type} {x : α} (s : List α) :
    ∀ (t a b : List α), x ∉ s → s ++ t = a ++ x :: b →
      ∃ a', a = s ++ a' ∧ t = a' ++ x :: b := by
  induction s with
  | nil => intro t a b _ h; exact ⟨a, rfl, by simpa using h⟩
  | cons y s ih =>
    intro t a b hx h
    cases a with
    | nil =>
      simp only [List.cons_append, List.nil_append, List.cons.injEq] at h
      exact absurd (h.1 ▸ List.mem_cons_self y s) hx
    | cons z a =>
      simp only [List.cons_append, List.cons.injEq] at h
      obtain ⟨a', ha, ht⟩ := ih t a b (fun hm => hx (List.mem_cons_of_mem _ hm)) h.2
      exact ⟨a', by rw [h.1, ha]; rfl, ht⟩

theorem split_unique {α : Type} {x : α} (s t a b : List α) (hs : x ∉ s) (ht : x ∉ t)
    (h : s ++ x :: t = a ++ x :: b) : a = s ∧ b = t := by
  obtain ⟨a', ha, h2⟩ := append_split_of_not_mem s (x :: t) a b hs h
  cases a' with
  | nil =>
    simp only [List.nil_append, List.cons.injEq, true_and] at h2
    exact ⟨by simpa using ha, h2.symm⟩
  | cons z a' =>
    simp only [List.cons_append, List.cons.injEq] at h2
    exact absurd (h2.2 ▸ (List.mem_append_right a' (List.mem_cons_self x b))) ht

theorem not_mem_of_split_nil {α : Type} {x : α} (t a b : List α) (ht : x ∉ t) :
    t ≠ a ++ x :: b := by
  intro h
  exact ht (h ▸ List.mem_append_right a (List.mem_cons_self x b))

/-! ## Events of the callbacks and of the loop -/

theorem callback_events_storage (K : DeltaCodes) (src : esp_partition_t) (o : Int)
    (c : CbCall) : ∀ e ∈ (callback K src o c).events, e.is_storage = true := by
  cases c with
  | seek d => intro e he; simp [callback, seek_cb_eq] at he
  | write buf size ok =>
    intro e he
    simp only [callback, write_cb] at he
    split at he
    · simp at he
    · split at he <;> simp at he <;> subst he <;> rfl
  | read size flash =>
    intro e he
    simp only [callback, read_cb] at he
    split at he
    · simp at he
    · cases flash with
      | none => simp at he; subst he; rfl
      | some bytes =>
        simp only [] at he
        split at he <;> simp at he <;> subst he <;> rfl

theorem run_callbacks_storage (K : DeltaCodes) (src : esp_partition_t) (calls : List CbCall) :
    ∀ (o : Int), ∀ e ∈ (run_callbacks K src o calls).2, e.is_storage = true := by
  induction calls with
  | nil => intro o e he; simp [run_callbacks] at he
  | cons c cs ih =>
    intro o e he
    simp only [run_callbacks, List.mem_append] at he
    rcases he with he | he
    · exact callback_events_storage K src o c e he
    · exact ih _ e he

theorem in_loop_of_storage (e : Event) (h : e.is_storage = true) : e.in_loop = true := by
  cases e <;> simp_all [Event.is_storage, Event.in_loop]

theorem ingest_loop_events (K : DeltaCodes) (env : Env) (src : esp_partition_t)
    (net : List (Nat → NetStep)) :
    ∀ (o : Int), ∀ e ∈ (ingest_loop K env src o net).trace, e.in_loop = true := by
  induction net with
  | nil => intro o e he; simp [ingest_loop] at he
  | cons f rest ih =>
    intro o e he
    simp only [ingest_loop] at he
    split at he
    · simp [http_cleanup] at he
      rcases he with rfl | rfl | rfl | rfl <;> rfl
    · split at he
      · split at he
        · simp only [List.cons_append, List.mem_cons, List.mem_append, List.mem_singleton,
            List.not_mem_nil, or_false] at he
          rcases he with rfl | rfl | he | rfl
          · rfl
          · rfl
          · exact in_loop_of_storage e (run_callbacks_storage K src _ _ e he)
          · rfl
        · simp only [List.cons_append, List.mem_cons, List.mem_append] at he
          rcases he with rfl | rfl | he | he
          · rfl
          · rfl
          · exact in_loop_of_storage e (run_callbacks_storage K src _ _ e he)
          · exact ih _ e he
      · split at he
        · simp at he
          rcases he with rfl | rfl <;> rfl
        · split at he
          · simp at he
            rcases he with rfl | rfl <;> rfl
          · simp only [List.cons_append, List.nil_append, List.mem_cons] at he
            rcases he with rfl | rfl | he
            · rfl
            · rfl
            · exact ih _ e he

/-! ## Shape of a run -/

theorem setup_is_setup : ∀ e ∈ setup, e.is_setup = true := by
  decide

/-- A run either gives up during set-up, or consists of the set-up calls, the
trace of the loop and, if the loop was left through a `break`, the
finalization. -/
theorem task_shape (K : DeltaCodes) (env : Env) :
    ((ota_example_task K env).outcome = Outcome.fatal ∧
      ∀ e ∈ (ota_example_task K env).trace, e.is_setup = true) ∨
    ∃ src : esp_partition_t,
      ((ingest_loop K env src 0 env.net).exit = LoopExit.done ∧
        ota_example_task K env =
          { trace := setup ++ (ingest_loop K env src 0 env.net).trace ++
              finalization K env src (ingest_loop K env src 0 env.net).src_offset
            outcome := Outcome.rebooted }) ∨
      ((ingest_loop K env src 0 env.net).exit = LoopExit.fatal ∧
        ota_example_task K env =
          { trace := setup ++ (ingest_loop K env src 0 env.net).trace
            outcome := Outcome.fatal }) ∨
      ((ingest_loop K env src 0 env.net).exit = LoopExit.streaming ∧
        ota_example_task K env =
          { trace := setup ++ (ingest_loop K env src 0 env.net).trace
            outcome := Outcome.streaming }) := by
  unfold ota_example_task
  split
  · left; exact ⟨rfl, by decide⟩
  · split
    · left; exact ⟨rfl, by decide⟩
    · split
      · rename_i src dest _ _
        split
        · left; exact ⟨rfl, by decide⟩
        · split
          · left; exact ⟨rfl, by decide⟩
          · split
            · left; exact ⟨rfl, by decide⟩
            · right
              refine ⟨src, ?_⟩
              simp only []
              split
              · rename_i hx; right; left; exact ⟨hx, rfl⟩
              · rename_i hx; right; right; exact ⟨hx, rfl⟩
              · rename_i hx; left
                refine ⟨hx, ?_⟩
                simp [setup, finalization]
      · left; exact ⟨rfl, by decide⟩

theorem finalization_eq (K : DeltaCodes) (env : Env) (src : esp_partition_t) (o : Int) :
    finalization K env src o =
      (Event.esp_delta_ota_finish env.finish_result ::
        ((run_callbacks K src o env.finish_calls).2 ++ [Event.esp_delta_ota_deinit])) ++
      Event.esp_ota_set_boot_partition ::
        [Event.esp_http_client_close, Event.esp_http_client_cleanup, Event.reboot] := by
  simp [finalization, http_cleanup]

theorem not_mem_of_is_setup {x : Event} (hx : x.is_setup = false) (t : List Event)
    (h : ∀ e ∈ t, e.is_setup = true) : x ∉ t := by
  intro hm
  have := h x hm
  rw [hx] at this
  exact Bool.noConfusion this

theorem not_mem_of_in_loop {x : Event} (hx : x.in_loop = false) (t : List Event)
    (h : ∀ e ∈ t, e.in_loop = true) : x ∉ t := by
  intro hm
  have := h x hm
  rw [hx] at this
  exact Bool.noConfusion this

theorem not_mem_of_is_storage {x : Event} (hx : x.is_storage = false) (t : List Event)
    (h : ∀ e ∈ t, e.is_storage = true) : x ∉ t := by
  intro hm
  have := h x hm
  rw [hx] at this
  exact Bool.noConfusion this

/-- A run that does not reach `reboot()` only makes set-up and loop calls. -/
theorem unfinished_events (K : DeltaCodes) (env : Env)
    (h : (ota_example_task K env).outcome ≠ Outcome.rebooted) :
    ∀ e ∈ (ota_example_task K env).trace, e.is_setup = true ∨ e.in_loop = true := by
  rcases task_shape K env with ⟨-, hall⟩ | ⟨src, ⟨-, heq⟩ | ⟨-, heq⟩ | ⟨-, heq⟩⟩
  · intro e he; exact Or.inl (hall e he)
  · rw [heq] at h; exact absurd rfl h
  · intro e he
    rw [heq] at he
    rcases List.mem_append.1 he with he | he
    · exact Or.inl (setup_is_setup e he)
    · exact Or.inr (ingest_loop_events K env src env.net 0 e he)
  · intro e he
    rw [heq] at he
    rcases List.mem_append.1 he with he | he
    · exact Or.inl (setup_is_setup e he)
    · exact Or.inr (ingest_loop_events K env src env.net 0 e he)

/-- A run that reaches `reboot()`: set-up, loop calls, then `finish` with the
decoder's last callbacks, `deinit`, the boot switch, `http_cleanup` and
`reboot`. -/
theorem rebooted_trace (K : DeltaCodes) (env : Env)
    (h : (ota_example_task K env).outcome = Outcome.rebooted) :
    ∃ lt fin : List Event, (∀ e ∈ lt, e.in_loop = true) ∧ (∀ e ∈ fin, e.is_storage = true) ∧
      (ota_example_task K env).trace =
        (setup ++ lt ++ Event.esp_delta_ota_finish env.finish_result ::
            (fin ++ [Event.esp_delta_ota_deinit])) ++
          Event.esp_ota_set_boot_partition ::
            [Event.esp_http_client_close, Event.esp_http_client_cleanup, Event.reboot] := by
  rcases task_shape K env with ⟨hout, -⟩ | ⟨src, ⟨-, heq⟩ | ⟨-, heq⟩ | ⟨-, heq⟩⟩
  · rw [hout] at h; exact absurd h (by decide)
  · refine ⟨(ingest_loop K env src 0 env.net).trace,
      (run_callbacks K src (ingest_loop K env src 0 env.net).src_offset env.finish_calls).2,
      ingest_loop_events K env src env.net 0, run_callbacks_storage K src _ _, ?_⟩
    rw [heq]
    simp only [finalization_eq, List.append_assoc]
  · rw [heq] at h; simp at h
  · rw [heq] at h; simp at h

theorem not_mem_unfinished {x : Event} (hs : x.is_setup = false) (hl : x.in_loop = false)
    (K : DeltaCodes) (env : Env) (h : (ota_example_task K env).outcome ≠ Outcome.rebooted) :
    x ∉ (ota_example_task K env).trace := by
  intro hm
  rcases unfinished_events K env h x hm with h1 | h1
  · rw [hs] at h1; exact Bool.noConfusion h1
  · rw [hl] at h1; exact Bool.noConfusion h1

theorem not_mem_before_switch {x : Event} (hs : x.is_setup = false) (hl : x.in_loop = false)
    (hf : x.is_finish = false) (hd : x ≠ Event.esp_delta_ota_deinit)
    (lt fin : List Event) (r : Int)
    (hlt : ∀ e ∈ lt, e.in_loop = true) (hfin : ∀ e ∈ fin, e.is_storage = true) :
    x ∉ setup ++ lt ++ Event.esp_delta_ota_finish r :: (fin ++ [Event.esp_delta_ota_deinit]) := by
  intro hm
  simp only [List.mem_append, List.mem_cons, List.mem_singleton, List.not_mem_nil,
    or_false] at hm
  rcases hm with (hm | hm) | hm | hm | hm
  · exact not_mem_of_is_setup hs setup setup_is_setup hm
  · exact not_mem_of_in_loop hl lt hlt hm
  · subst hm; simp [Event.is_finish] at hf
  · have := in_loop_of_storage x (hfin x hm)
    rw [hl] at this; exact Bool.noConfusion this
  · exact hd hm

/-! ## Order of the finalization -/

/-- C4 as stated fails: in this run the loop ends cleanly, `esp_delta_ota_finish`
returns -1 (a failure) and `esp_ota_set_boot_partition` is called all the
same. -/
theorem finish_failure_still_switches :
    Event.esp_delta_ota_finish (-1) ∈
      (ota_example_task sampleCodes (sampleEnv [sampleChunk 0, sampleEnd] (-1))).trace ∧
    Event.esp_ota_set_boot_partition ∈
      (ota_example_task sampleCodes (sampleEnv [sampleChunk 0, sampleEnd] (-1))).trace := by
  decide

/-- C4 (amended): in every run, `esp_ota_set_boot_partition` is called at most
once and only after `esp_delta_ota_finish` has been called and then
`esp_delta_ota_deinit`, whatever `finish` returned; every run that leaves the
loop through a `break` sets the boot target, also when `finish` reports a
failure. -/
theorem boot_switch_order (K : DeltaCodes) (env : Env) :
    (∀ a b : List Event,
      (ota_example_task K env).trace = a ++ Event.esp_ota_set_boot_partition :: b →
        (ota_example_task K env).outcome = Outcome.rebooted ∧
        (∃ p q, a = p ++ Event.esp_delta_ota_finish env.finish_result ::
            (q ++ [Event.esp_delta_ota_deinit])) ∧
        Event.esp_ota_set_boot_partition ∉ a ∧ Event.esp_ota_set_boot_partition ∉ b) ∧
    ((ota_example_task K env).outcome = Outcome.rebooted →
      Event.esp_ota_set_boot_partition ∈ (ota_example_task K env).trace) := by
  constructor
  · intro a b h
    by_cases hout : (ota_example_task K env).outcome = Outcome.rebooted
    · obtain ⟨lt, fin, hlt, hfin, heq⟩ := rebooted_trace K env hout
      have hpre := not_mem_before_switch (x := Event.esp_ota_set_boot_partition) rfl rfl rfl
        (by decide) lt fin env.finish_result hlt hfin
      rw [heq] at h
      obtain ⟨ha, hb⟩ := split_unique _ _ a b hpre (by decide) h
      refine ⟨hout, ⟨setup ++ lt, fin, ?_⟩, ?_, ?_⟩
      · rw [ha]
      · rw [ha]; exact hpre
      · rw [hb]; decide
    · have := not_mem_unfinished (x := Event.esp_ota_set_boot_partition) rfl rfl K env hout
      rw [h] at this
      exact absurd (List.mem_append_right a (List.mem_cons_self _ b)) this
  · intro hout
    obtain ⟨lt, fin, -, -, heq⟩ := rebooted_trace K env hout
    rw [heq]
    exact List.mem_append_right _ (List.mem_cons_self _ _)

/-- Witness of the amended C4: the run in which `finish` returns -1, split at
the setting of the boot target. -/
theorem boot_switch_order_witness :
    ((ota_example_task sampleCodes (sampleEnv [sampleChunk 0, sampleEnd] (-1))).outcome =
        Outcome.rebooted ∧
      (∃ p q, setup ++ [Event.esp_http_client_read 1024 3,
            Event.esp_delta_ota_feed_patch [1, 2, 3] 3, Event.esp_partition_read 0 2,
            Event.esp_ota_write [9, 9] 2, Event.esp_http_client_read 1024 0,
            Event.esp_http_client_is_complete_data_received true,
            Event.esp_delta_ota_finish (-1), Event.esp_delta_ota_deinit] =
          p ++ Event.esp_delta_ota_finish (-1) :: (q ++ [Event.esp_delta_ota_deinit])) ∧
      Event.esp_ota_set_boot_partition ∉ setup ++ [Event.esp_http_client_read 1024 3,
            Event.esp_delta_ota_feed_patch [1, 2, 3] 3, Event.esp_partition_read 0 2,
            Event.esp_ota_write [9, 9] 2, Event.esp_http_client_read 1024 0,
            Event.esp_http_client_is_complete_data_received true,
            Event.esp_delta_ota_finish (-1), Event.esp_delta_ota_deinit] ∧
      Event.esp_ota_set_boot_partition ∉
        [Event.esp_http_client_close, Event.esp_http_client_cleanup, Event.reboot]) ∧
    Event.esp_ota_set_boot_partition ∈
      (ota_example_task sampleCodes (sampleEnv [sampleChunk 0, sampleEnd] (-1))).trace :=
  ⟨(boot_switch_order sampleCodes (sampleEnv [sampleChunk 0, sampleEnd] (-1))).1 _ _
      (by decide),
   (boot_switch_order sampleCodes (sampleEnv [sampleChunk 0, sampleEnd] (-1))).2 (by decide)⟩

/-! ## Decoder teardown -/

/-- C5 as stated fails: the decoder session exists (`delta_ota_set_cfg` was
called and returned a handle), the run ends in `task_fatal_error()` after a
negative network read, respectively after a negative feed result, and
`esp_delta_ota_deinit` is never called. -/
theorem no_deinit_on_fatal :
    (Event.delta_ota_set_cfg ∈
        (ota_example_task sampleCodes (sampleEnv [sampleReadError] 0)).trace ∧
      (ota_example_task sampleCodes (sampleEnv [sampleReadError] 0)).outcome = Outcome.fatal ∧
      (ota_example_task sampleCodes (sampleEnv [sampleReadError] 0)).trace.count
        Event.esp_delta_ota_deinit = 0) ∧
    (Event.delta_ota_set_cfg ∈
        (ota_example_task sampleCodes (sampleEnv [sampleChunk (-1)] 0)).trace ∧
      (ota_example_task sampleCodes (sampleEnv [sampleChunk (-1)] 0)).outcome = Outcome.fatal ∧
      (ota_example_task sampleCodes (sampleEnv [sampleChunk (-1)] 0)).trace.count
        Event.esp_delta_ota_deinit = 0) := by
  decide

/-- C5 (amended): in every run of `ota_example_task` that ends by reboot,
`esp_delta_ota_deinit` is called exactly once; in every run that ends in
`task_fatal_error()` (among them the runs ended by a negative network read or
a negative feed result) it is not called. -/
theorem deinit_count (K : DeltaCodes) (env : Env) :
    ((ota_example_task K env).outcome = Outcome.rebooted →
      (ota_example_task K env).trace.count Event.esp_delta_ota_deinit = 1) ∧
    ((ota_example_task K env).outcome = Outcome.fatal →
      (ota_example_task K env).trace.count Event.esp_delta_ota_deinit = 0) := by
  constructor
  · intro hout
    obtain ⟨lt, fin, hlt, hfin, heq⟩ := rebooted_trace K env hout
    have h1 : List.count Event.esp_delta_ota_deinit lt = 0 :=
      List.count_eq_zero_of_not_mem
        (not_mem_of_in_loop (x := Event.esp_delta_ota_deinit) rfl lt hlt)
    have h2 : List.count Event.esp_delta_ota_deinit fin = 0 :=
      List.count_eq_zero_of_not_mem
        (not_mem_of_is_storage (x := Event.esp_delta_ota_deinit) rfl fin hfin)
    have h3 : List.count Event.esp_delta_ota_deinit setup = 0 := by decide
    rw [heq]
    simp [List.count_append, List.count_cons, h1, h2, h3]
  · intro hout
    exact List.count_eq_zero_of_not_mem
      (not_mem_unfinished (x := Event.esp_delta_ota_deinit) rfl rfl K env
        (by rw [hout]; decide))

/-- Witness of the amended C5: a clean run and a run ended by a network error. -/
theorem deinit_count_witness :
    (ota_example_task sampleCodes (sampleEnv [sampleChunk 0, sampleEnd] 0)).trace.count
      Event.esp_delta_ota_deinit = 1 ∧
    (ota_example_task sampleCodes (sampleEnv [sampleChunk 0, sampleReadError] 0)).trace.count
      Event.esp_delta_ota_deinit = 0 :=
  ⟨(deinit_count sampleCodes (sampleEnv [sampleChunk 0, sampleEnd] 0)).1 (by decide),
   (deinit_count sampleCodes (sampleEnv [sampleChunk 0, sampleReadError] 0)).2 (by decide)⟩

/-! ## The write session -/

/-- C6 as stated fails: this run sets the boot target and the write session
opened by `esp_ota_begin` was never finalized (no `esp_ota_end`). -/
theorem boot_switch_without_end_write :
    Event.esp_ota_set_boot_partition ∈
      (ota_example_task sampleCodes (sampleEnv [sampleChunk 0, sampleEnd] 0)).trace ∧
    (ota_example_task sampleCodes (sampleEnv [sampleChunk 0, sampleEnd] 0)).trace.count
      Event.esp_ota_end = 0 := by
  decide

/-- C6 (amended): in every run that sets the boot target, `esp_ota_begin` was
called exactly once before that, no destination write precedes it, and no
destination write follows the setting of the boot target; the write session is
not finalized: no run of `ota_example_task` calls `esp_ota_end`. -/
theorem write_session_order (K : DeltaCodes) (env : Env) :
    (∀ a b : List Event,
      (ota_example_task K env).trace = a ++ Event.esp_ota_set_boot_partition :: b →
        (∃ p q, a = p ++ Event.esp_ota_begin :: q ∧ Event.esp_ota_begin ∉ p ∧
          Event.esp_ota_begin ∉ q ∧ ∀ e ∈ p, e.is_write = false) ∧
        ∀ e ∈ b, e.is_write = false) ∧
    Event.esp_ota_end ∉ (ota_example_task K env).trace := by
  constructor
  · intro a b h
    by_cases hout : (ota_example_task K env).outcome = Outcome.rebooted
    · obtain ⟨lt, fin, hlt, hfin, heq⟩ := rebooted_trace K env hout
      have hpre := not_mem_before_switch (x := Event.esp_ota_set_boot_partition) rfl rfl rfl
        (by decide) lt fin env.finish_result hlt hfin
      rw [heq] at h
      obtain ⟨ha, hb⟩ := split_unique _ _ a b hpre (by decide) h
      refine ⟨⟨startup, Event.delta_ota_set_cfg :: (lt ++
          Event.esp_delta_ota_finish env.finish_result ::
            (fin ++ [Event.esp_delta_ota_deinit])), ?_, by decide, ?_, by decide⟩, ?_⟩
      · rw [ha]; simp [setup]
      · intro hm
        simp only [List.mem_append, List.mem_cons, List.mem_singleton, List.not_mem_nil,
          or_false] at hm
        rcases hm with hm | hm | hm | hm | hm
        · exact absurd hm (by decide)
        · exact not_mem_of_in_loop (x := Event.esp_ota_begin) rfl lt hlt hm
        · exact absurd hm (by simp)
        · exact not_mem_of_is_storage (x := Event.esp_ota_begin) rfl fin hfin hm
        · exact absurd hm (by decide)
      · rw [hb]; decide
    · have := not_mem_unfinished (x := Event.esp_ota_set_boot_partition) rfl rfl K env hout
      rw [h] at this
      exact absurd (List.mem_append_right a (List.mem_cons_self _ b)) this
  · by_cases hout : (ota_example_task K env).outcome = Outcome.rebooted
    · obtain ⟨lt, fin, hlt, hfin, heq⟩ := rebooted_trace K env hout
      rw [heq]
      intro hm
      rcases List.mem_append.1 hm with hm | hm
      · exact not_mem_before_switch (x := Event.esp_ota_end) rfl rfl rfl (by decide)
          lt fin env.finish_result hlt hfin hm
      · exact absurd hm (by decide)
    · exact not_mem_unfinished (x := Event.esp_ota_end) rfl rfl K env hout

/-- Witness of the amended C6 on a clean run: the calls before and after the
setting of the boot target. -/
theorem write_session_order_witness :
    (∃ p q, setup ++ [Event.esp_http_client_read 1024 3,
          Event.esp_delta_ota_feed_patch [1, 2, 3] 3, Event.esp_partition_read 0 2,
          Event.esp_ota_write [9, 9] 2, Event.esp_http_client_read 1024 0,
          Event.esp_http_client_is_complete_data_received true,
          Event.esp_delta_ota_finish 0, Event.esp_delta_ota_deinit] =
        p ++ Event.esp_ota_begin :: q ∧ Event.esp_ota_begin ∉ p ∧
        Event.esp_ota_begin ∉ q ∧ ∀ e ∈ p, e.is_write = false) ∧
    ∀ e ∈ [Event.esp_http_client_close, Event.esp_http_client_cleanup, Event.reboot],
      e.is_write = false :=
  (write_session_order sampleCodes (sampleEnv [sampleChunk 0, sampleEnd] 0)).1 _ _ (by decide)

/-! ## The loop, branch by branch -/

theorem ingest_loop_read_error (K : DeltaCodes) (env : Env) (src : esp_partition_t) (o : Int)
    (f : Nat → NetStep) (rest : List (Nat → NetStep)) (h : (f BUFFSIZE).data_read < 0) :
    ingest_loop K env src o (f :: rest) =
      { trace := Event.esp_http_client_read BUFFSIZE (f BUFFSIZE).data_read ::
          (http_cleanup ++ [Event.task_fatal_error])
        src_offset := o, exit := LoopExit.fatal } := by
  simp only [ingest_loop]
  rw [if_pos h]

theorem ingest_loop_feed_error (K : DeltaCodes) (env : Env) (src : esp_partition_t) (o : Int)
    (f : Nat → NetStep) (rest : List (Nat → NetStep)) (h : 0 < (f BUFFSIZE).data_read)
    (hf : (f BUFFSIZE).feed_result < 0) :
    ingest_loop K env src o (f :: rest) =
      { trace := (Event.esp_http_client_read BUFFSIZE (f BUFFSIZE).data_read ::
          Event.esp_delta_ota_feed_patch (f BUFFSIZE).buf (f BUFFSIZE).data_read ::
          (run_callbacks K src o (f BUFFSIZE).feed_calls).2) ++ [Event.task_fatal_error]
        src_offset := (run_callbacks K src o (f BUFFSIZE).feed_calls).1
        exit := LoopExit.fatal } := by
  simp only [ingest_loop]
  rw [if_neg (by omega), if_pos (by omega), if_pos hf]

theorem ingest_loop_feed (K : DeltaCodes) (env : Env) (src : esp_partition_t) (o : Int)
    (f : Nat → NetStep) (rest : List (Nat → NetStep)) (h : 0 < (f BUFFSIZE).data_read)
    (hf : 0 ≤ (f BUFFSIZE).feed_result) :
    ingest_loop K env src o (f :: rest) =
      { trace := (Event.esp_http_client_read BUFFSIZE (f BUFFSIZE).data_read ::
          Event.esp_delta_ota_feed_patch (f BUFFSIZE).buf (f BUFFSIZE).data_read ::
          (run_callbacks K src o (f BUFFSIZE).feed_calls).2) ++
            (ingest_loop K env src (run_callbacks K src o (f BUFFSIZE).feed_calls).1 rest).trace
        src_offset :=
          (ingest_loop K env src (run_callbacks K src o (f BUFFSIZE).feed_calls).1 rest).src_offset
        exit :=
          (ingest_loop K env src (run_callbacks K src o (f BUFFSIZE).feed_calls).1 rest).exit } := by
  simp only [ingest_loop]
  rw [if_neg (by omega), if_pos (by omega), if_neg (by omega)]

theorem ingest_loop_break (K : DeltaCodes) (env : Env) (src : esp_partition_t) (o : Int)
    (f : Nat → NetStep) (rest : List (Nat → NetStep)) (h : (f BUFFSIZE).data_read = 0)
    (hb : (f BUFFSIZE).complete = true ∨
      (f BUFFSIZE).errno = env.ECONNRESET ∨ (f BUFFSIZE).errno = env.ENOTCONN) :
    ingest_loop K env src o (f :: rest) =
      { trace := [Event.esp_http_client_read BUFFSIZE (f BUFFSIZE).data_read,
          Event.esp_http_client_is_complete_data_received (f BUFFSIZE).complete]
        src_offset := o, exit := LoopExit.done } := by
  simp only [ingest_loop]
  rw [if_neg (by omega), if_neg (by omega)]
  by_cases hc : (f BUFFSIZE).complete = true
  · rw [if_pos (by simp [hc])]
  · rw [if_neg (by simp [hc]), if_pos (hb.resolve_left hc)]

theorem ingest_loop_again (K : DeltaCodes) (env : Env) (src : esp_partition_t) (o : Int)
    (f : Nat → NetStep) (rest : List (Nat → NetStep)) (h : (f BUFFSIZE).data_read = 0)
    (hc : (f BUFFSIZE).complete = false)
    (he : ¬ ((f BUFFSIZE).errno = env.ECONNRESET ∨ (f BUFFSIZE).errno = env.ENOTCONN)) :
    ingest_loop K env src o (f :: rest) =
      { trace := [Event.esp_http_client_read BUFFSIZE (f BUFFSIZE).data_read,
          Event.esp_http_client_is_complete_data_received (f BUFFSIZE).complete] ++
            (ingest_loop K env src o rest).trace
        src_offset := (ingest_loop K env src o rest).src_offset
        exit := (ingest_loop K env src o rest).exit } := by
  simp only [ingest_loop]
  rw [if_neg (by omega), if_neg (by omega), if_neg (by simp [hc]), if_neg he]

theorem append_split_right {α : Type} {x : α} (s : List α) :
    ∀ (t a b : List α), x ∉ t → s ++ t = a ++ x :: b →
      ∃ b', s = a ++ x :: b' ∧ b = b' ++ t := by
  induction s with
  | nil =>
    intro t a b hx h
    simp only [List.nil_append] at h
    exact absurd (h ▸ List.mem_append_right a (List.mem_cons_self x b)) hx
  | cons y s ih =>
    intro t a b hx h
    cases a with
    | nil =>
      simp only [List.cons_append, List.nil_append, List.cons.injEq] at h
      exact ⟨s, by rw [h.1]; rfl, h.2.symm⟩
    | cons z a =>
      simp only [List.cons_append, List.cons.injEq] at h
      obtain ⟨b', hs, hb⟩ := ih t a b hx h.2
      exact ⟨b', by rw [h.1, hs]; rfl, hb⟩

theorem read_not_storage (len : Nat) (n : Int) (t : List Event)
    (h : ∀ e ∈ t, e.is_storage = true) : Event.esp_http_client_read len n ∉ t :=
  not_mem_of_is_storage (x := Event.esp_http_client_read len n) rfl t h

/-- In the trace of the loop a negative network read is followed by
`http_cleanup`, `task_fatal_error` and nothing else. -/
theorem ingest_loop_negative_read (K : DeltaCodes) (env : Env) (src : esp_partition_t)
    (net : List (Nat → NetStep)) :
    ∀ (o : Int) (a b : List Event) (len : Nat) (n : Int), n < 0 →
      (ingest_loop K env src o net).trace = a ++ Event.esp_http_client_read len n :: b →
      b = http_cleanup ++ [Event.task_fatal_error] ∧
        (ingest_loop K env src o net).exit = LoopExit.fatal := by
  induction net with
  | nil =>
    intro o a b len n _ h
    simp [ingest_loop] at h
  | cons f rest ih =>
    intro o a b len n hn h
    have hcb := run_callbacks_storage K src (f BUFFSIZE).feed_calls o
    by_cases h1 : (f BUFFSIZE).data_read < 0
    · rw [ingest_loop_read_error K env src o f rest h1] at h ⊢
      simp only [] at h ⊢
      cases a with
      | nil =>
        simp only [List.nil_append, List.cons.injEq] at h
        exact ⟨h.2.symm, trivial⟩
      | cons z a =>
        simp only [List.cons_append, List.cons.injEq] at h
        exact absurd h.2 (not_mem_of_split_nil _ a b (by simp [http_cleanup]))
    · by_cases h2 : 0 < (f BUFFSIZE).data_read
      · have hx : Event.esp_http_client_read len n ∉
            Event.esp_http_client_read BUFFSIZE (f BUFFSIZE).data_read ::
              Event.esp_delta_ota_feed_patch (f BUFFSIZE).buf (f BUFFSIZE).data_read ::
              (run_callbacks K src o (f BUFFSIZE).feed_calls).2 := by
          intro hm
          simp only [List.mem_cons, Event.esp_http_client_read.injEq] at hm
          rcases hm with hm | hm | hm
          · omega
          · exact Event.noConfusion hm
          · exact read_not_storage len n _ hcb hm
        by_cases h3 : (f BUFFSIZE).feed_result < 0
        · rw [ingest_loop_feed_error K env src o f rest h2 h3] at h
          simp only [] at h
          obtain ⟨a', -, h'⟩ := append_split_of_not_mem _ _ a b hx h
          exact absurd h' (not_mem_of_split_nil _ a' b (by simp))
        · rw [ingest_loop_feed K env src o f rest h2 (by omega)] at h ⊢
          simp only [] at h ⊢
          obtain ⟨a', -, h'⟩ := append_split_of_not_mem _ _ a b hx h
          exact ih _ a' b len n hn h'
      · have h0 : (f BUFFSIZE).data_read = 0 := by omega
        have hx : Event.esp_http_client_read len n ∉
            [Event.esp_http_client_read BUFFSIZE (f BUFFSIZE).data_read,
             Event.esp_http_client_is_complete_data_received (f BUFFSIZE).complete] := by
          intro hm
          simp only [List.mem_cons, Event.esp_http_client_read.injEq, List.mem_singleton,
            List.not_mem_nil, or_false] at hm
          rcases hm with hm | hm
          · omega
          · exact Event.noConfusion hm
        by_cases hb : (f BUFFSIZE).complete = true ∨
            (f BUFFSIZE).errno = env.ECONNRESET ∨ (f BUFFSIZE).errno = env.ENOTCONN
        · rw [ingest_loop_break K env src o f rest h0 hb] at h
          simp only [] at h
          exact absurd h (not_mem_of_split_nil _ a b hx)
        · have hc : (f BUFFSIZE).complete = false := by
            cases hcc : (f BUFFSIZE).complete
            · rfl
            · exact absurd (Or.inl hcc) hb
          rw [ingest_loop_again K env src o f rest h0 hc (fun he => hb (Or.inr he))] at h ⊢
          simp only [] at h ⊢
          obtain ⟨a', -, h'⟩ := append_split_of_not_mem _ _ a b hx h
          exact ih _ a' b len n hn h'

/-! ## Transport failure -/

theorem read_not_in_finalization (K : DeltaCodes) (env : Env) (src : esp_partition_t)
    (o : Int) (len : Nat) (n : Int) :
    Event.esp_http_client_read len n ∉ finalization K env src o := by
  intro hm
  simp [finalization, http_cleanup] at hm
  exact read_not_storage len n _ (run_callbacks_storage K src _ _) hm

/-- C7: in every run of `ota_example_task`, whatever the network answers, a
network read that returns a negative count is followed by exactly
`esp_http_client_close`, `esp_http_client_cleanup` and `task_fatal_error()`:
the connection is closed, the task gives up, and no further network read, no
decoder feed and no change of the boot target takes place. -/
theorem transport_failure (K : DeltaCodes) (env : Env) (a b : List Event) (len : Nat)
    (n : Int) (hn : n < 0)
    (h : (ota_example_task K env).trace = a ++ Event.esp_http_client_read len n :: b) :
    b = [Event.esp_http_client_close, Event.esp_http_client_cleanup,
      Event.task_fatal_error] ∧
    (ota_example_task K env).outcome = Outcome.fatal := by
  have hsetup : Event.esp_http_client_read len n ∉ setup :=
    not_mem_of_is_setup (x := Event.esp_http_client_read len n) rfl setup setup_is_setup
  rcases task_shape K env with ⟨-, hall⟩ | ⟨src, ⟨hx, heq⟩ | ⟨hx, heq⟩ | ⟨hx, heq⟩⟩
  · have := not_mem_of_is_setup (x := Event.esp_http_client_read len n) rfl _ hall
    rw [h] at this
    exact absurd (List.mem_append_right a (List.mem_cons_self _ b)) this
  · rw [heq] at h
    simp only [List.append_assoc] at h
    obtain ⟨a', -, h'⟩ := append_split_of_not_mem _ _ a b hsetup h
    obtain ⟨b', h'', -⟩ := append_split_right _ _ a' b
      (read_not_in_finalization K env src _ len n) h'
    have := (ingest_loop_negative_read K env src env.net 0 a' b' len n hn h'').2
    rw [hx] at this
    exact LoopExit.noConfusion this
  · rw [heq] at h ⊢
    simp only [] at h ⊢
    obtain ⟨a', -, h'⟩ := append_split_of_not_mem _ _ a b hsetup h
    exact ⟨(ingest_loop_negative_read K env src env.net 0 a' b len n hn h').1, trivial⟩
  · rw [heq] at h
    simp only [] at h
    obtain ⟨a', -, h'⟩ := append_split_of_not_mem _ _ a b hsetup h
    have := (ingest_loop_negative_read K env src env.net 0 a' b len n hn h').2
    rw [hx] at this
    exact LoopExit.noConfusion this

/-- Witness of C7: a chunk is fed, the second read fails, and the third answer
of the network is never asked for. -/
theorem transport_failure_witness :
    (-1 : Int) < 0 ∧
    (ota_example_task sampleCodes
        (sampleEnv [sampleChunk 0, sampleReadError, sampleChunk 0] 0)).trace =
      (setup ++ [Event.esp_http_client_read 1024 3, Event.esp_delta_ota_feed_patch [1, 2, 3] 3,
        Event.esp_partition_read 0 2, Event.esp_ota_write [9, 9] 2]) ++
        Event.esp_http_client_read 1024 (-1) ::
          [Event.esp_http_client_close, Event.esp_http_client_cleanup,
            Event.task_fatal_error] ∧
    (ota_example_task sampleCodes
        (sampleEnv [sampleChunk 0, sampleReadError, sampleChunk 0] 0)).outcome =
      Outcome.fatal :=
  ⟨by decide, by decide,
   (transport_failure sampleCodes (sampleEnv [sampleChunk 0, sampleReadError, sampleChunk 0] 0)
      (setup ++ [Event.esp_http_client_read 1024 3, Event.esp_delta_ota_feed_patch [1, 2, 3] 3,
        Event.esp_partition_read 0 2, Event.esp_ota_write [9, 9] 2])
      [Event.esp_http_client_close, Event.esp_http_client_cleanup, Event.task_fatal_error]
      1024 (-1) (by decide) (by decide)).2⟩

/-! ## Clean end of stream -/

theorem feeds_append (s t : List Event) : feeds (s ++ t) = feeds s ++ feeds t := by
  induction s with
  | nil => rfl
  | cons e s ih => cases e <;> simp [feeds, ih]

theorem feeds_storage (t : List Event) (h : ∀ e ∈ t, e.is_storage = true) : feeds t = [] := by
  induction t with
  | nil => rfl
  | cons e t ih =>
    have he := h e (List.mem_cons_self _ _)
    have ht := ih (fun e' he' => h e' (List.mem_cons_of_mem _ he'))
    cases e <;> simp_all [feeds, Event.is_storage]

theorem feeds_cons_read (len : Nat) (n : Int) (t : List Event) :
    feeds (Event.esp_http_client_read len n :: t) = feeds t := rfl

theorem feeds_cons_feed (buf : List Nat) (n : Int) (t : List Event) :
    feeds (Event.esp_delta_ota_feed_patch buf n :: t) = (buf, n) :: feeds t := rfl

/-- C8: when the network delivers a finite series of positive reads, each
within the length asked for and each accepted by the decoder, and then a
zero-length read with all data received, the loop is left through `break`
without `task_fatal_error()`, and the decoder was fed exactly the buffer and
the count of each positive read, in order, each count at most 1024. -/
theorem clean_end_of_stream (K : DeltaCodes) (env : Env) (src : esp_partition_t)
    (pos : List (Nat → NetStep)) (last : Nat → NetStep) (post : List (Nat → NetStep))
    (hpos : ∀ f ∈ pos, 0 < (f BUFFSIZE).data_read ∧ 0 ≤ (f BUFFSIZE).feed_result)
    (hlen : ∀ f ∈ pos, ∀ len : Nat, (f len).data_read ≤ (len : Int))
    (hzero : (last BUFFSIZE).data_read = 0) (hall : (last BUFFSIZE).complete = true)
    (o : Int) :
    (ingest_loop K env src o (pos ++ last :: post)).exit = LoopExit.done ∧
    Event.task_fatal_error ∉ (ingest_loop K env src o (pos ++ last :: post)).trace ∧
    feeds (ingest_loop K env src o (pos ++ last :: post)).trace =
      pos.map (fun f => ((f BUFFSIZE).buf, (f BUFFSIZE).data_read)) ∧
    ∀ c ∈ feeds (ingest_loop K env src o (pos ++ last :: post)).trace, c.2 ≤ 1024 := by
  induction pos generalizing o with
  | nil =>
    rw [List.nil_append, ingest_loop_break K env src o last post hzero (Or.inl hall)]
    simp [feeds]
  | cons f pos ih =>
    have hf := hpos f (List.mem_cons_self _ _)
    have hl := hlen f (List.mem_cons_self _ _) BUFFSIZE
    have hcb := run_callbacks_storage K src (f BUFFSIZE).feed_calls o
    obtain ⟨i1, i2, i3, i4⟩ := ih (fun g hg => hpos g (List.mem_cons_of_mem _ hg))
      (fun g hg => hlen g (List.mem_cons_of_mem _ hg))
      (run_callbacks K src o (f BUFFSIZE).feed_calls).1
    rw [List.cons_append, ingest_loop_feed K env src o f _ hf.1 hf.2]
    simp only [List.cons_append, feeds_cons_read, feeds_cons_feed, feeds_append,
      feeds_storage _ hcb, List.nil_append, List.map_cons, i3]
    refine ⟨i1, ?_, trivial, ?_⟩
    · intro hm
      simp only [List.mem_cons, List.mem_append] at hm
      rcases hm with hm | hm | hm | hm
      · exact Event.noConfusion hm
      · exact Event.noConfusion hm
      · exact not_mem_of_is_storage (x := Event.task_fatal_error) rfl _ hcb hm
      · exact i2 hm
    · intro c hc
      rcases List.mem_cons.1 hc with rfl | hc
      · simpa [BUFFSIZE] using hl
      · exact i4 c (by rw [i3]; exact hc)

/-- Witness of C8: two chunks of three bytes, then the end of the stream;
what the network would answer afterwards is never asked for. -/
theorem clean_end_of_stream_witness :
    (ingest_loop sampleCodes (sampleEnv [] 0) ⟨16, 16⟩ 0
        ([sampleChunk 0, sampleChunk 0] ++ sampleEnd :: [sampleReadError])).exit =
      LoopExit.done ∧
    feeds (ingest_loop sampleCodes (sampleEnv [] 0) ⟨16, 16⟩ 0
        ([sampleChunk 0, sampleChunk 0] ++ sampleEnd :: [sampleReadError])).trace =
      [([1, 2, 3], 3), ([1, 2, 3], 3)] :=
  ⟨(clean_end_of_stream sampleCodes (sampleEnv [] 0) ⟨16, 16⟩ [sampleChunk 0, sampleChunk 0]
      sampleEnd [sampleReadError] (by decide)
      (by intro f hf len
          simp only [List.mem_cons, List.mem_singleton, List.not_mem_nil, or_false,
            or_self] at hf
          subst hf
          simp only [sampleChunk]
          omega)
      rfl rfl 0).1,
   (clean_end_of_stream sampleCodes (sampleEnv [] 0) ⟨16, 16⟩ [sampleChunk 0, sampleChunk 0]
      sampleEnd [sampleReadError] (by decide)
      (by intro f hf len
          simp only [List.mem_cons, List.mem_singleton, List.not_mem_nil, or_false,
            or_self] at hf
          subst hf
          simp only [sampleChunk]
          omega)
      rfl rfl 0).2.2.1⟩

end DeltaOta
